import Mathlib

/-!
Shallow embedding of the vertex-data and transform core of the `pixel`
2D rendering library (file `graphics.go`, package `pixel`).

Modelling conventions:
* Go float64 arithmetic is modelled as exact real arithmetic (`ℝ`), and
  so are the float32 computations inside the external `mgl32` package;
  the explicit narrowing conversions `float32(...)` written in the Go
  source (in `Transform.Mat` and `Transform.Project`) are modelled by
  the binary32 rounding function `float32` below, and the widening
  conversions `float64(...)` are exact.
* `Vec` is the library's external 2D vector type (not part of `src/`);
  it is modelled as a pair of reals with component accessors.
* Go slices of vertices are modelled as Lean lists; a Go `panic` is
  modelled by `Option` (`none` = panic) or, where the memory state at
  the moment of the panic matters, by `Except` carrying that state.
* Go `int` lengths passed to `SetLen` are modelled as `Int`, since the
  behaviour on negative lengths is of interest.
-/

namespace Pixel

/-- The external 2D vector type (`pixel.Vec`), modelled as a pair of reals. -/
abbrev Vec := ℝ × ℝ

/-- `V(x, y)` constructs a vector. -/
def V (x y : ℝ) : Vec := (x, y)

/-- The x component accessor `v.X()`. -/
def Vec.X (v : Vec) : ℝ := v.1

/-- The y component accessor `v.Y()`. -/
def Vec.Y (v : Vec) : ℝ := v.2

/-- The external normalized RGBA color type (`pixel.NRGBA`), four channels in `[0,1]`. -/
structure NRGBA where
  R : ℝ
  G : ℝ
  B : ℝ
  A : ℝ

/-- One vertex of `TrianglesData`: position, color and texture coordinate
(the anonymous struct in `graphics.go`). -/
structure Vertex where
  Position : Vec
  Color : NRGBA
  Texture : Vec

/-- The default vertex value appended by `SetLen` when growing:
`{V(0, 0), NRGBA{1, 1, 1, 1}, V(-1, -1)}`. -/
def defaultVertex : Vertex := ⟨V 0 0, ⟨1, 1, 1, 1⟩, V (-1) (-1)⟩

/-- `TrianglesData` is a list of triangle vertices (a Go slice of vertex structs). -/
abbrev TrianglesData := List Vertex

/-- `Len` returns the number of vertices in `TrianglesData`. -/
def TrianglesData.Len (td : TrianglesData) : Nat := td.length

/-- `SetLen` resizes `TrianglesData` to `n`, keeping the original content:
grow by appending default vertices when `n` exceeds the current length,
then truncate via the Go slicing `(*td)[:n]` when `n` is below the
(possibly grown) length.  The slicing panics (modelled as `none`) exactly
when `n < 0`, since `n` is then below the current length but not a valid
slice bound.  The grow step (the first `if` of the Go code) is hoisted
into `setLenGrown`. -/
def TrianglesData.setLenGrown (td : TrianglesData) (n : Int) : TrianglesData :=
  if n > (td.Len : Int) then td ++ List.replicate (n - td.Len).toNat defaultVertex else td

def TrianglesData.SetLen (td : TrianglesData) (n : Int) : Option TrianglesData :=
  let td1 := td.setLenGrown n
  if n < (td1.Len : Int) then
    if 0 ≤ n then some (td1.take n.toNat) else none
  else some td1

/-- `MakeTrianglesData` creates `TrianglesData` of length `n` initialized with
default property values, by `SetLen` on an empty buffer. -/
def MakeTrianglesData (n : Int) : Option TrianglesData :=
  TrianglesData.SetLen [] n

/-- A vertex source that exposes only some capabilities: `Len()` always,
and per-index `Position`, `Color`, `Texture` only when the corresponding
interface (`TrianglesPosition`, `TrianglesColor`, `TrianglesTexture`) is
implemented (`none` = the type assertion fails). -/
structure TriSource where
  len : Nat
  pos? : Option (Nat → Vec)
  col? : Option (Nat → NRGBA)
  tex? : Option (Nat → Vec)

/-- The `Triangles` interface: a concrete `*TrianglesData` (the fast-path
type assertion succeeds) or some other implementation described by its
capabilities. -/
inductive Triangles where
  | data (td : TrianglesData)
  | src (s : TriSource)

/-- `Len()` of a `Triangles` value. -/
def Triangles.Len : Triangles → Nat
  | .data td => td.Len
  | .src s => s.len

/-- Go's builtin `copy(dst, src)`: overwrites the first
`min (length dst) (length src)` elements of `dst` with those of `src`,
keeping the rest of `dst`. -/
def goCopy (dst src : List Vertex) : List Vertex :=
  src.take (min dst.length src.length) ++ dst.drop (min dst.length src.length)

/-- The position pass of the slow path:
`for i := range *td { (*td)[i].Position = t.Position(i) }`,
with `i` the running index. -/
def setPositions (f : Nat → Vec) : Nat → TrianglesData → TrianglesData
  | _, [] => []
  | i, v :: rest => { v with Position := f i } :: setPositions f (i + 1) rest

/-- The color pass of the slow path. -/
def setColors (f : Nat → NRGBA) : Nat → TrianglesData → TrianglesData
  | _, [] => []
  | i, v :: rest => { v with Color := f i } :: setColors f (i + 1) rest

/-- The texture pass of the slow path. -/
def setTextures (f : Nat → Vec) : Nat → TrianglesData → TrianglesData
  | _, [] => []
  | i, v :: rest => { v with Texture := f i } :: setTextures f (i + 1) rest

/-- `updateData`: fast path (`copy`) when the source is a `*TrianglesData`;
otherwise up to three independent passes, one per capability the source
exposes, each copying only its own field. -/
def TrianglesData.updateData (td : TrianglesData) (t : Triangles) : TrianglesData :=
  match t with
  | .data s => goCopy td s
  | .src s =>
    let td1 := match s.pos? with
      | some f => setPositions f 0 td
      | none => td
    let td2 := match s.col? with
      | some f => setColors f 0 td1
      | none => td1
    match s.tex? with
      | some f => setTextures f 0 td2
      | none => td2

/-- `Update` copies vertex properties from the supplied `Triangles`.
The Go code panics when the lengths differ, before any field is copied;
the panic is modelled as `Except.error` carrying the buffer state at the
moment of the panic (which is the unmodified input buffer, since the
length check precedes `updateData`). -/
def TrianglesData.Update (td : TrianglesData) (t : Triangles) : Except TrianglesData TrianglesData :=
  if td.Len ≠ t.Len then .error td else .ok (td.updateData t)

/-! ### Basic lemmas about `SetLen`, `goCopy` and the slow-path passes -/

theorem setLen_neg_none (td : TrianglesData) (n : Int) (h : n < 0) :
    td.SetLen n = none := by
  have h0 : (0 : Int) ≤ (td.length : Int) := Int.ofNat_nonneg _
  have hg : td.setLenGrown n = td := by
    rw [TrianglesData.setLenGrown, if_neg]
    simp only [TrianglesData.Len]
    omega
  simp only [TrianglesData.SetLen, hg, TrianglesData.Len]
  rw [if_pos (by omega), if_neg (by omega)]

theorem setLenGrown_length (td : TrianglesData) (n : Nat) :
    (td.setLenGrown (n : Int)).length = max td.length n := by
  rw [TrianglesData.setLenGrown]
  by_cases hgt : (n : Int) > (td.Len : Int)
  · rw [if_pos hgt]
    simp only [TrianglesData.Len] at hgt
    have hlt : td.length < n := by exact_mod_cast hgt
    simp only [List.length_append, List.length_replicate, TrianglesData.Len]
    omega
  · rw [if_neg hgt]
    simp only [TrianglesData.Len] at hgt
    have hle : n ≤ td.length := by omega
    omega

theorem setLen_ofNat_some (td : TrianglesData) (n : Nat) :
    ∃ td1, td.SetLen (n : Int) = some td1 ∧ td1.length = n := by
  simp only [TrianglesData.SetLen, TrianglesData.Len]
  by_cases hlt : (n : Int) < ((td.setLenGrown (n : Int)).length : Int)
  · refine ⟨(td.setLenGrown (n : Int)).take (n : Int).toNat, ?_, ?_⟩
    · rw [if_pos hlt, if_pos (Int.ofNat_nonneg n)]
    · have := setLenGrown_length td n
      simp only [List.length_take, Int.toNat_ofNat]
      omega
  · refine ⟨td.setLenGrown (n : Int), ?_, ?_⟩
    · rw [if_neg hlt]
    · have := setLenGrown_length td n
      omega

theorem goCopy_eq_of_length_eq (dst src : List Vertex) (h : dst.length = src.length) :
    goCopy dst src = src := by
  simp [goCopy, h, List.take_of_length_le, List.drop_eq_nil_of_le]

theorem setPositions_map_color (f : Nat → Vec) :
    ∀ (i : Nat) (td : TrianglesData),
      (setPositions f i td).map (fun v => v.Color) = td.map (fun v => v.Color)
  | _, [] => rfl
  | i, v :: rest => by
    simp [setPositions, setPositions_map_color f (i + 1) rest]

theorem setPositions_map_texture (f : Nat → Vec) :
    ∀ (i : Nat) (td : TrianglesData),
      (setPositions f i td).map (fun v => v.Texture) = td.map (fun v => v.Texture)
  | _, [] => rfl
  | i, v :: rest => by
    simp [setPositions, setPositions_map_texture f (i + 1) rest]

theorem setPositions_map_position (f : Nat → Vec) :
    ∀ (i : Nat) (td : TrianglesData),
      (setPositions f i td).map (fun v => v.Position) = (List.range' i td.length).map f
  | _, [] => rfl
  | i, v :: rest => by
    simp [setPositions, List.range'_succ, setPositions_map_position f (i + 1) rest]

/-! ### Claims C4, C9, C5, C10 -/

/-- C4: `Update` fails with the invalid-length panic if and only if the
source length differs from the destination length; when the lengths agree
the update always succeeds. -/
theorem update_fails_iff_length_mismatch (td : TrianglesData) (t : Triangles) :
    (td.Update t = .error td ↔ td.Len ≠ t.Len) ∧
      (td.Len = t.Len → ∃ r, td.Update t = .ok r) := by
  constructor
  · constructor
    · intro h hlen
      simp [TrianglesData.Update, hlen] at h
    · intro hne
      simp [TrianglesData.Update, hne]
  · intro hlen
    exact ⟨td.updateData t, by simp [TrianglesData.Update, hlen]⟩

/-- Witness for C4 at a concrete mismatched and a concrete matched pair. -/
theorem update_fails_iff_length_mismatch_witness :
    ∃ r, TrianglesData.Update [defaultVertex] (.data [defaultVertex]) = .ok r :=
  (update_fails_iff_length_mismatch [defaultVertex] (.data [defaultVertex])).2 rfl

/-- C9: `Update` is atomic on failure: when the lengths differ, the panic
fires before any field is copied, so the buffer state carried out of the
failing call is exactly the original destination buffer. -/
theorem update_atomic_on_failure (td : TrianglesData) (t : Triangles)
    (h : td.Len ≠ t.Len) : td.Update t = .error td := by
  simp [TrianglesData.Update, h]

/-- Witness for C9: a length-1 destination updated from a length-0 source. -/
theorem update_atomic_on_failure_witness :
    TrianglesData.Update [defaultVertex] (.data []) = .error [defaultVertex] :=
  update_atomic_on_failure [defaultVertex] (.data []) (by decide)

/-- C5: updating from an equal-length source that exposes only the
position capability copies every vertex position from the source exactly
and leaves every destination color and texture unchanged. -/
theorem update_position_only_source (td : TrianglesData) (s : TriSource) (f : Nat → Vec)
    (hpos : s.pos? = some f) (hcol : s.col? = none) (htex : s.tex? = none)
    (hlen : td.Len = s.len) :
    td.Update (.src s) = .ok (setPositions f 0 td) ∧
      (setPositions f 0 td).map (fun v => v.Position) = (List.range td.Len).map f ∧
      (setPositions f 0 td).map (fun v => v.Color) = td.map (fun v => v.Color) ∧
      (setPositions f 0 td).map (fun v => v.Texture) = td.map (fun v => v.Texture) := by
  refine ⟨?_, ?_, setPositions_map_color f 0 td, setPositions_map_texture f 0 td⟩
  · simp [TrianglesData.Update, Triangles.Len, hlen, TrianglesData.updateData, hpos, hcol, htex]
  · rw [setPositions_map_position f 0 td, TrianglesData.Len, List.range_eq_range']

/-- Witness for C5 at a concrete two-vertex destination and a
position-only source. -/
theorem update_position_only_source_witness :
    TrianglesData.Update [defaultVertex, defaultVertex]
        (.src ⟨2, some (fun i => V i 0), none, none⟩) =
      .ok (setPositions (fun i => V i 0) 0 [defaultVertex, defaultVertex]) ∧
      (setPositions (fun i => V i 0) 0 [defaultVertex, defaultVertex]).map
          (fun v => v.Position) =
        (List.range (TrianglesData.Len [defaultVertex, defaultVertex])).map (fun i => V i 0) ∧
      (setPositions (fun i => V i 0) 0 [defaultVertex, defaultVertex]).map
          (fun v => v.Color) =
        [defaultVertex, defaultVertex].map (fun v => v.Color) ∧
      (setPositions (fun i => V i 0) 0 [defaultVertex, defaultVertex]).map
          (fun v => v.Texture) =
        [defaultVertex, defaultVertex].map (fun v => v.Texture) :=
  update_position_only_source [defaultVertex, defaultVertex]
    ⟨2, some (fun i => V i 0), none, none⟩ (fun i => V i 0) rfl rfl rfl rfl

/-- C10: `SetLen` with a negative length is a fatal contract violation
(the Go slice bound `(*td)[:n]` with `n < 0` panics), on any buffer; hence
`MakeTrianglesData` with a negative length also panics, and no buffer of
negative length is ever produced. -/
theorem setLen_negative_panics (td : TrianglesData) (n : Int) (h : n < 0) :
    td.SetLen n = none ∧ MakeTrianglesData n = none :=
  ⟨setLen_neg_none td n h, setLen_neg_none [] n h⟩

/-- Witness for C10 at `n = -1` on a concrete one-vertex buffer. -/
theorem setLen_negative_panics_witness :
    TrianglesData.SetLen [defaultVertex] (-1) = none ∧ MakeTrianglesData (-1) = none :=
  setLen_negative_panics [defaultVertex] (-1) (by decide)

/-! ### TrianglesDrawer -/

/-- Modelled from the spec: `Target.MakeTriangles` (the `Target`
interface is outside `src/`) materializes a backend-specific resource
from the supplied vertex data; the resource holds that data and supports
resize (`SetLen`) and update (`Update`) with the buffer semantics. -/
def makeTargetTriangles (src : TrianglesData) : TrianglesData := src

/-- `TrianglesDrawer` wraps `Triangles` and keeps one cached
`TargetTriangles` resource per `Target`, plus a dirty flag.  Targets are
identified by their map key, modelled as `Nat`; the cache map is an
association list.  The drawables of this package wrap a
`TrianglesData`, so the wrapped `Triangles` is modelled concretely. -/
structure TrianglesDrawer where
  tri : TrianglesData
  tris : List (Nat × TrianglesData)
  dirty : Bool

/-- One cached resource refresh inside `flush`:
`t.SetLen(td.Len()); t.Update(td.Triangles)` (panics propagate). -/
def syncResource (src r : TrianglesData) : Option TrianglesData :=
  match r.SetLen (src.Len : Int) with
  | none => none
  | some r1 =>
    match r1.Update (.data src) with
    | .error _ => none
    | .ok r2 => some r2

/-- The `for _, t := range td.tris` loop of `flush`, refreshing each
cached resource in turn (panics propagate). -/
def syncAll (src : TrianglesData) : List (Nat × TrianglesData) → Option (List (Nat × TrianglesData))
  | [] => some []
  | pr :: rest =>
    match syncResource src pr.2 with
    | none => none
    | some r =>
      match syncAll src rest with
      | none => none
      | some rest1 => some ((pr.1, r) :: rest1)

/-- `flush`: nothing to do when clean; otherwise clear the dirty flag and
resize-and-update every cached resource, across all targets. -/
def TrianglesDrawer.flush (d : TrianglesDrawer) : Option TrianglesDrawer :=
  if d.dirty = false then some d
  else
    match syncAll d.tri d.tris with
    | none => none
    | some tris1 => some ⟨d.tri, tris1, false⟩

/-- `Draw`: flush, then fetch (or lazily create) the resource cached for
this target and issue its draw call (an external effect, no state
change). -/
def TrianglesDrawer.Draw (d : TrianglesDrawer) (target : Nat) : Option TrianglesDrawer :=
  match d.flush with
  | none => none
  | some d1 =>
    match d1.tris.lookup target with
    | some _ => some d1
    | none => some { d1 with tris := d1.tris ++ [(target, makeTargetTriangles d1.tri)] }

/-- `Dirty` marks the underlying container as changed. -/
def TrianglesDrawer.Dirty (d : TrianglesDrawer) : TrianglesDrawer :=
  { d with dirty := true }

theorem syncResource_eq (src r : TrianglesData) : syncResource src r = some src := by
  obtain ⟨r1, hsl, hl⟩ := setLen_ofNat_some r src.Len
  have hlen : r1.Len = (Triangles.data src).Len := by
    simp [TrianglesData.Len, Triangles.Len, hl]
  have hupd : r1.Update (.data src) = .ok src := by
    simp only [TrianglesData.Update]
    rw [if_neg (by simp [hlen])]
    rw [show r1.updateData (.data src) = src from
      goCopy_eq_of_length_eq r1 src (by simpa [TrianglesData.Len] using hl)]
  simp [syncResource, hsl, hupd]

theorem syncAll_eq (src : TrianglesData) (l : List (Nat × TrianglesData)) :
    syncAll src l = some (l.map (fun pr => (pr.1, src))) := by
  induction l with
  | nil => rfl
  | cons p rest ih => simp [syncAll, syncResource_eq, ih]

/-! ### Claim C7 -/

/-- C7: drawing a dirty drawer succeeds and leaves every cached per-target
resource — for all targets it was ever drawn to, not only the one drawn
now — resized and fully updated to the current source data (equal to the
wrapped buffer). -/
theorem draw_refreshes_every_target (d : TrianglesDrawer) (target : Nat)
    (h : d.dirty = true) :
    ∃ d2, d.Draw target = some d2 ∧ ∀ pr ∈ d2.tris, pr.2 = d.tri := by
  have hflush : d.flush = some ⟨d.tri, d.tris.map (fun pr => (pr.1, d.tri)), false⟩ := by
    simp [TrianglesDrawer.flush, h, syncAll_eq]
  cases hlook : (d.tris.map (fun pr => (pr.1, d.tri))).lookup target with
  | some r =>
    refine ⟨⟨d.tri, d.tris.map (fun pr => (pr.1, d.tri)), false⟩, ?_, ?_⟩
    · simp only [TrianglesDrawer.Draw, hflush, hlook]
    · intro pr hpr
      obtain ⟨q, _, hq⟩ := List.mem_map.mp hpr
      exact (congrArg Prod.snd hq).symm
  | none =>
    refine ⟨⟨d.tri,
        d.tris.map (fun pr => (pr.1, d.tri)) ++ [(target, makeTargetTriangles d.tri)],
        false⟩, ?_, ?_⟩
    · simp only [TrianglesDrawer.Draw, hflush, hlook]
    · intro pr hpr
      rcases List.mem_append.mp hpr with hin | hin
      · obtain ⟨q, _, hq⟩ := List.mem_map.mp hin
        exact (congrArg Prod.snd hq).symm
      · rcases List.mem_singleton.mp hin with rfl
        rfl

/-- A concrete dirty drawer with stale cached resources for two targets. -/
def drawerEx : TrianglesDrawer :=
  ⟨[defaultVertex], [(0, []), (1, [])], true⟩

/-- Witness for C7: drawing target `0` refreshes the cached resources of
both targets `0` and `1`. -/
theorem draw_refreshes_every_target_witness :
    ∃ d2, drawerEx.Draw 0 = some d2 ∧ ∀ pr ∈ d2.tris, pr.2 = drawerEx.tri :=
  draw_refreshes_every_target drawerEx 0 rfl

/-! ### Polygon -/

/-- Opaque white, the color used in concrete examples. -/
def white : NRGBA := ⟨1, 1, 1, 1⟩

/-- `Polygon` is a convex polygon shape filled with a single color.
The embedded `TrianglesDrawer` contributes only its dirty flag here;
its per-target caches are modelled separately with `TrianglesDrawer`. -/
structure Polygon where
  data : TrianglesData
  col : NRGBA
  dirty : Bool

/-- `SetColor` changes the color of the `Polygon`: store the converted
color, overwrite every vertex color with it, mark dirty.
Modelled from the spec: the external color model conversion
(`NRGBAModel.Convert`, outside `src/`) converts arbitrary colors to
`NRGBA`; on inputs that are already `NRGBA` it is the identity, so the
model takes the already-converted `NRGBA` value. -/
def Polygon.SetColor (p : Polygon) (c : NRGBA) : Polygon :=
  { data := p.data.map (fun v => { v with Color := c }), col := c, dirty := true }

/-- `Color` returns the current color of the `Polygon`. -/
def Polygon.Color (p : Polygon) : NRGBA := p.col

/-- One assignment `data[j].Position = pos`.  The Go write would panic out
of range; every call site below writes in bounds (the loop indices cover
exactly the freshly resized buffer), where the two models agree. -/
def setPosAt (td : TrianglesData) (j : Nat) (pos : Vec) : TrianglesData :=
  match td[j]? with
  | some v => td.set j { v with Position := pos }
  | none => td

/-- The `SetPoints` position loop
`for i := 2; i < len(points); i++ { ... }`, written with the (statically
known) remaining iteration count `k = len(points) - i` as structural
fuel; `i` is the Go loop variable.  Go reads `points[0]`, `points[i-1]`,
`points[i]`, all in bounds while `i < len(points)`, modelled by `getD`. -/
def setPointsAux (pts : List Vec) : Nat → Nat → TrianglesData → TrianglesData
  | 0, _, td => td
  | k + 1, i, td =>
    let td1 := setPosAt td ((i - 2) * 3 + 0) (pts.getD 0 (V 0 0))
    let td2 := setPosAt td1 ((i - 2) * 3 + 1) (pts.getD (i - 1) (V 0 0))
    let td3 := setPosAt td2 ((i - 2) * 3 + 2) (pts.getD i (V 0 0))
    setPointsAux pts k (i + 1) td3

/-- `SetPoints` sets the points of the `Polygon`: resize the buffer to
`3*(N-2)` (panic propagated from `SetLen` when that is negative),
fan-triangulate the positions, reapply the current color to all
vertices, mark dirty. -/
def Polygon.SetPoints (p : Polygon) (points : List Vec) : Option Polygon :=
  match p.data.SetLen (3 * ((points.length : Int) - 2)) with
  | none => none
  | some d1 =>
    let d2 := setPointsAux points (points.length - 2) 2 d1
    some { data := d2.map (fun v => { v with Color := p.col }), col := p.col, dirty := true }

/-- `NewPolygon` creates a `Polygon` with the specified color and points:
a zero-valued polygon, then `SetColor`, then `SetPoints`. -/
def NewPolygon (c : NRGBA) (points : List Vec) : Option Polygon :=
  ((Polygon.mk [] ⟨0, 0, 0, 0⟩ false).SetColor c).SetPoints points

/-- `Points` returns the positions stored in the Polygon's vertex buffer,
one per vertex (`make` a slice of length `p.data.Len()`, then
`points[i] = p.data[i].Position`). -/
def Polygon.Points (p : Polygon) : List Vec :=
  p.data.map (fun v => v.Position)

/-- The polygon states reachable by the public operations: construction,
`SetColor`, `SetPoints` (successful calls). -/
inductive PolygonReachable : Polygon → Prop
  | new (c : NRGBA) (points : List Vec) (p : Polygon) :
      NewPolygon c points = some p → PolygonReachable p
  | setColor (p : Polygon) (c : NRGBA) :
      PolygonReachable p → PolygonReachable (p.SetColor c)
  | setPoints (p p2 : Polygon) (points : List Vec) :
      PolygonReachable p → p.SetPoints points = some p2 → PolygonReachable p2

theorem map_recolor (l : TrianglesData) (c : NRGBA) :
    (l.map (fun v => { v with Color := c })).map (fun v => v.Color) =
      List.replicate l.length c := by
  induction l with
  | nil => rfl
  | cons v rest ih => simp [ih, List.replicate_succ]

theorem setPoints_colors (p p2 : Polygon) (points : List Vec)
    (h : p.SetPoints points = some p2) :
    p2.data.map (fun v => v.Color) = List.replicate p2.data.length p2.col := by
  unfold Polygon.SetPoints at h
  cases hsl : p.data.SetLen (3 * ((points.length : Int) - 2)) with
  | none => rw [hsl] at h; cases h
  | some d1 =>
    rw [hsl] at h
    cases h
    rw [List.length_map]
    exact map_recolor _ _

/-! ### Claims C8, C3, C1 -/

/-- C8: after any sequence of public operations, every vertex in the
Polygon's buffer carries the Polygon's current color (the value returned
by `Color()`). -/
theorem polygon_color_invariant (p : Polygon) (h : PolygonReachable p) :
    p.data.map (fun v => v.Color) = List.replicate p.data.length p.Color := by
  cases h with
  | new c points p hnew =>
    exact setPoints_colors _ p points hnew
  | setColor q c _ =>
    simp only [Polygon.SetColor, Polygon.Color, List.length_map]
    exact map_recolor _ _
  | setPoints q p2 points _ hset =>
    exact setPoints_colors q p points hset

/-- A concrete polygon obtained from `NewPolygon` on a triangle. -/
def polyTriangle : Polygon :=
  (NewPolygon white [V 0 0, V 1 0, V 0 1]).getD (Polygon.mk [] white false)

/-- Witness for C8 on a concrete freshly constructed triangle. -/
theorem polygon_color_invariant_witness :
    polyTriangle.data.map (fun v => v.Color) =
      List.replicate polyTriangle.data.length polyTriangle.Color :=
  polygon_color_invariant polyTriangle
    (PolygonReachable.new white [V 0 0, V 1 0, V 0 1] polyTriangle rfl)

/-- C3 counterexample: `SetPoints` with zero points does not complete
silently with an empty buffer; it panics, because `SetLen` is called
with the negative length `3*(0-2) = -6`. -/
theorem setPoints_zero_points_panics :
    Polygon.SetPoints (Polygon.mk [] white false) [] = none := rfl

/-- C3 amended: for fewer than 2 input points `SetPoints` is a fatal
failure (`SetLen` panics on the negative length `3*(N-2)`); the silent
degenerate case is exactly `N = 2`, which empties the buffer without
error. -/
theorem setPoints_degenerate (p : Polygon) (points : List Vec) :
    (points.length < 2 → p.SetPoints points = none) ∧
      (points.length = 2 → p.SetPoints points = some ⟨[], p.col, true⟩) := by
  constructor
  · intro hlt
    have hneg : 3 * ((points.length : Int) - 2) < 0 := by omega
    unfold Polygon.SetPoints
    rw [setLen_neg_none p.data _ hneg]
  · intro hlen
    have h0 : 3 * ((points.length : Int) - 2) = ((0 : Nat) : Int) := by
      rw [hlen]; rfl
    unfold Polygon.SetPoints
    rw [h0]
    obtain ⟨td1, hsl, hl⟩ := setLen_ofNat_some p.data 0
    rw [hsl]
    have hnil : td1 = [] := List.length_eq_zero.mp hl
    subst hnil
    have hfuel : points.length - 2 = 0 := by omega
    rw [hfuel]
    rfl

/-- Witness for C3 (amended): one point panics, two points empty the buffer. -/
theorem setPoints_degenerate_witness :
    Polygon.SetPoints (Polygon.mk [] white false) [V 0 0] = none ∧
      Polygon.SetPoints (Polygon.mk [] white false) [V 0 0, V 1 1] =
        some ⟨[], white, true⟩ :=
  ⟨(setPoints_degenerate (Polygon.mk [] white false) [V 0 0]).1 (by decide),
    (setPoints_degenerate (Polygon.mk [] white false) [V 0 0, V 1 1]).2 (by decide)⟩

/-- The four corners of the unit square, a concrete 4-gon input. -/
def sqPts : List Vec := [V 0 0, V 1 0, V 1 1, V 0 1]

/-- C1: evaluating the code at the failing input.  For a polygon built
from the 4 points `P0 P1 P2 P3`, `Points()` returns the 6 triangulated
vertex positions `P0 P1 P2 P0 P2 P3` — a list of length `3*(N-2) = 6`,
not the original 4 supplied points, contradicting the documentation of
`Points` ("in the order they where supplied"). -/
theorem points_returns_triangulated_vertices :
    (NewPolygon white sqPts).map Polygon.Points =
      some [V 0 0, V 1 0, V 1 1, V 0 0, V 1 1, V 0 1] ∧
      (NewPolygon white sqPts).map (fun p => p.Points.length) = some 6 ∧
      sqPts.length = 4 :=
  ⟨rfl, rfl, rfl⟩

/-! ### binary32 rounding

The Go source narrows float64 values to float32 at the `mgl32` boundary
(`float32(v.X())` and friends).  That narrowing is modelled by `float32`
below: IEEE-754 binary32 round-to-nearest, ties to even, in
sign-magnitude form, with the subnormal exponent clamped at `-126`.
Overflow to infinity is not modelled (the exponent is unbounded above);
every input of interest here is far inside the finite range. -/

/-- Round to nearest integer, ties to even (the IEEE-754 default
rounding, applied to an already-scaled significand). -/
noncomputable def rne (x : ℝ) : ℤ :=
  if x - ⌊x⌋ < 1 / 2 then ⌊x⌋
  else if 1 / 2 < x - ⌊x⌋ then ⌊x⌋ + 1
  else if Even ⌊x⌋ then ⌊x⌋ else ⌊x⌋ + 1

/-- The narrowing conversion `float32(x)` of a float64 value `x`:
round the magnitude to 24 significant bits (ties to even) at the
exponent `max (Int.log 2 |x|) (-126)`, keeping the sign. -/
noncomputable def float32 (x : ℝ) : ℝ :=
  if x = 0 then 0
  else
    ((if x < 0 then -1 else 1) : ℝ) *
      (rne (|x| * 2 ^ ((23 : ℤ) - max (Int.log 2 |x|) (-126))) : ℝ) *
      2 ^ (max (Int.log 2 |x|) (-126) - 23)

theorem rne_intCast (n : ℤ) : rne (n : ℝ) = n := by
  norm_num [rne]

theorem float32_zero : float32 0 = 0 := by
  simp [float32]

theorem float32_neg (x : ℝ) : float32 (-x) = -float32 x := by
  rcases lt_trichotomy x 0 with hx | hx | hx
  · have hxne : x ≠ 0 := ne_of_lt hx
    have hnxne : -x ≠ 0 := by simpa using hxne
    have hnx : ¬ -x < 0 := by linarith
    simp only [float32, if_neg hnxne, if_neg hxne, abs_neg, if_neg hnx, if_pos hx]
    ring
  · simp [hx, float32]
  · have hxne : x ≠ 0 := ne_of_gt hx
    have hnxne : -x ≠ 0 := by simpa using hxne
    have hnx : -x < 0 := by linarith
    have hx' : ¬ x < 0 := by linarith
    simp only [float32, if_neg hnxne, if_neg hxne, abs_neg, if_pos hnx, if_neg hx']
    ring

theorem int_log_two_eq {r : ℝ} (k : ℤ) (hr : 0 < r)
    (h1 : (2 : ℝ) ^ k ≤ r) (h2 : r < (2 : ℝ) ^ (k + 1)) : Int.log 2 r = k := by
  have hb : (1 : ℕ) < 2 := by norm_num
  have hcast : ((2 : ℕ) : ℝ) = (2 : ℝ) := by norm_num
  have hk : k ≤ Int.log 2 r := by
    rw [← Int.zpow_le_iff_le_log hb hr, hcast]
    exact h1
  have hk2 : Int.log 2 r < k + 1 := by
    rw [← Int.lt_zpow_iff_log_lt hb hr, hcast]
    exact h2
  omega

theorem float32_one : float32 1 = 1 := by
  have hlog : Int.log 2 |(1 : ℝ)| = 0 := by
    simp [Int.log_one_right]
  have hmax : max (Int.log 2 |(1 : ℝ)|) (-126) = 0 := by
    rw [hlog]; norm_num
  have harg : |(1 : ℝ)| * 2 ^ ((23 : ℤ) - 0) = ((8388608 : ℤ) : ℝ) := by
    norm_num
  simp only [float32, one_ne_zero, if_false, hmax, harg, rne_intCast]
  norm_num [zpow_neg]

theorem float32_tenth : float32 (1 / 10) = 13421773 / 134217728 := by
  have hpos : (0 : ℝ) < 1 / 10 := by norm_num
  have hne : (1 / 10 : ℝ) ≠ 0 := by norm_num
  have habs : |(1 / 10 : ℝ)| = 1 / 10 := abs_of_pos hpos
  have hlog : Int.log 2 ((1 : ℝ) / 10) = -4 := by
    refine int_log_two_eq (-4) hpos ?_ ?_
    · rw [show ((2 : ℝ) ^ (-4 : ℤ)) = 1 / 16 by norm_num [zpow_neg]]
      norm_num
    · rw [show ((-4 : ℤ) + 1) = -3 by norm_num,
        show ((2 : ℝ) ^ (-3 : ℤ)) = 1 / 8 by norm_num [zpow_neg]]
      norm_num
  have hmax : max (Int.log 2 ((1 : ℝ) / 10)) (-126) = -4 := by
    rw [hlog]; norm_num
  have hfloor : ⌊(1 / 10 : ℝ) * 2 ^ ((23 : ℤ) - (-4))⌋ = 13421772 := by
    rw [show ((23 : ℤ) - (-4)) = 27 by norm_num,
      show ((2 : ℝ) ^ (27 : ℤ)) = 134217728 by norm_num]
    rw [Int.floor_eq_iff]
    constructor <;> norm_num
  have hrne : rne ((1 / 10 : ℝ) * 2 ^ ((23 : ℤ) - (-4))) = 13421773 := by
    rw [rne, hfloor]
    rw [show ((23 : ℤ) - (-4)) = 27 by norm_num,
      show ((2 : ℝ) ^ (27 : ℤ)) = 134217728 by norm_num]
    rw [if_neg (by norm_num), if_pos (by norm_num)]
    norm_num
  have hnlt : ¬ (1 / 10 : ℝ) < 0 := by norm_num
  simp only [float32, hne, if_false, hmax, habs, hrne, if_neg hnlt]
  norm_num [zpow_neg]

/-! ### Transform

`Transform` holds position, anchor, scale and rotation; the matrix math
of the external `mgl32` package is modelled by the standard homogeneous
3x3 matrices over the reals (mgl32's internal float32 arithmetic
modelled exactly); the `float32(...)` narrowing conversions written in
the Go source are modelled by `float32`. -/

structure Transform where
  pos : Vec
  anc : Vec
  sca : Vec
  rot : ℝ

/-- A homogeneous 3x3 matrix (`mgl32.Mat3`), entries row by row. -/
structure Mat3 where
  m00 : ℝ
  m01 : ℝ
  m02 : ℝ
  m10 : ℝ
  m11 : ℝ
  m12 : ℝ
  m20 : ℝ
  m21 : ℝ
  m22 : ℝ

/-- `mgl32.Ident3`. -/
def Ident3 : Mat3 := ⟨1, 0, 0, 0, 1, 0, 0, 0, 1⟩

/-- `mgl32.Translate2D`. -/
def Translate2D (x y : ℝ) : Mat3 := ⟨1, 0, x, 0, 1, y, 0, 0, 1⟩

/-- `mgl32.Rotate3DZ`: rotation about the z axis. -/
noncomputable def Rotate3DZ (angle : ℝ) : Mat3 :=
  ⟨Real.cos angle, -Real.sin angle, 0, Real.sin angle, Real.cos angle, 0, 0, 0, 1⟩

/-- `mgl32.Scale2D`. -/
def Scale2D (x y : ℝ) : Mat3 := ⟨x, 0, 0, 0, y, 0, 0, 0, 1⟩

/-- Matrix product `a.Mul3(b)`. -/
noncomputable def Mat3.Mul3 (a b : Mat3) : Mat3 :=
  ⟨a.m00 * b.m00 + a.m01 * b.m10 + a.m02 * b.m20,
    a.m00 * b.m01 + a.m01 * b.m11 + a.m02 * b.m21,
    a.m00 * b.m02 + a.m01 * b.m12 + a.m02 * b.m22,
    a.m10 * b.m00 + a.m11 * b.m10 + a.m12 * b.m20,
    a.m10 * b.m01 + a.m11 * b.m11 + a.m12 * b.m21,
    a.m10 * b.m02 + a.m11 * b.m12 + a.m12 * b.m22,
    a.m20 * b.m00 + a.m21 * b.m10 + a.m22 * b.m20,
    a.m20 * b.m01 + a.m21 * b.m11 + a.m22 * b.m21,
    a.m20 * b.m02 + a.m21 * b.m12 + a.m22 * b.m22⟩

/-- Matrix-vector product `m.Mul3x1(v)` on a homogeneous 3-vector. -/
noncomputable def Mat3.Mul3x1 (m : Mat3) (v : ℝ × ℝ × ℝ) : ℝ × ℝ × ℝ :=
  (m.m00 * v.1 + m.m01 * v.2.1 + m.m02 * v.2.2,
    m.m10 * v.1 + m.m11 * v.2.1 + m.m12 * v.2.2,
    m.m20 * v.1 + m.m21 * v.2.1 + m.m22 * v.2.2)

/-- `Scale` sets both scale axes to `scale`. -/
def Transform.Scale (t : Transform) (scale : ℝ) : Transform :=
  { t with sca := V scale scale }

/-- `ZT`, the Zero-Transform: the Go zero value with `Scale(1)`. -/
def ZT : Transform := (Transform.mk (V 0 0) (V 0 0) (V 0 0) 0).Scale 1

/-- `Anchor` (method) sets the anchor. -/
def Transform.Anchor (t : Transform) (anchor : Vec) : Transform :=
  { t with anc := anchor }

/-- `ScaleXY` sets the per-axis scale. -/
def Transform.ScaleXY (t : Transform) (scale : Vec) : Transform :=
  { t with sca := scale }

/-- `MulScaleXY` multiplies the existing scale component-wise. -/
noncomputable def Transform.MulScaleXY (t : Transform) (factor : Vec) : Transform :=
  { t with sca := V (t.sca.X * factor.X) (t.sca.Y * factor.Y) }

/-- `Anchor` (package function): a Zero-Transform with the given anchor. -/
def Anchor (anchor : Vec) : Transform := ZT.Anchor anchor

/-- `Camera(center, zoom, screenSize)`:
`Anchor(center).ScaleXY(2 * zoom).MulScaleXY(V(1/screenSize.X(), 1/screenSize.Y()))`.
The external `Vec` scalar product `2 * zoom` scales both components. -/
noncomputable def Camera (center zoom screenSize : Vec) : Transform :=
  ((Anchor center).ScaleXY (V (2 * zoom.X) (2 * zoom.Y))).MulScaleXY
    (V (1 / screenSize.X) (1 / screenSize.Y))

/-- `Mat()`: `Ident3 * Translate2D(pos) * Rotate3DZ(rot) * Scale2D(sca) *
Translate2D(-anc)`.  Each argument is narrowed by an explicit
`float32(...)` conversion in the Go source, modelled by `float32`. -/
noncomputable def Transform.Mat (t : Transform) : Mat3 :=
  (((Ident3.Mul3 (Translate2D (float32 t.pos.X) (float32 t.pos.Y))).Mul3
    (Rotate3DZ (float32 t.rot))).Mul3
    (Scale2D (float32 t.sca.X) (float32 t.sca.Y))).Mul3
    (Translate2D (float32 (-t.anc.X)) (float32 (-t.anc.Y)))

/-- `Project(v)`: apply `Mat()` to the homogeneous extension of `v`.
The components of `v` are narrowed by the `float32(...)` conversions of
`mgl32.Vec3{float32(v.X()), float32(v.Y()), 1}`; the outgoing
`float64(pro.X())` conversions widen without rounding. -/
noncomputable def Transform.Project (t : Transform) (v : Vec) : Vec :=
  let pro := t.Mat.Mul3x1 (float32 v.X, float32 v.Y, 1)
  V pro.1 pro.2.1

/-! ### Claims C6, C2 -/

/-- C6 counterexample: `ZT.Project(v)` is not `v` exactly for every `v`:
the coordinate `1/10` is not representable in binary32, so the
`float32(v.X())` narrowing inside `Project` rounds it and
`ZT.Project((1/10, 0)) ≠ (1/10, 0)`. -/
theorem zt_project_tenth_not_id :
    ¬ ZT.Project (V (1 / 10) 0) = V (1 / 10) 0 := by
  intro h
  have h1 := congrArg Prod.fst h
  simp only [ZT, Transform.Scale, Transform.Project, Transform.Mat, Ident3, Translate2D,
    Rotate3DZ, Scale2D, Mat3.Mul3, Mat3.Mul3x1, V, Vec.X, Vec.Y, neg_zero, float32_zero,
    float32_one, Real.cos_zero, Real.sin_zero] at h1
  rw [float32_tenth] at h1
  norm_num at h1

/-- C6 amended: the neutral transform `ZT` projects every point to
itself up to the binary32 narrowing of its coordinates: `ZT.Project(v)`
returns `v` with each coordinate rounded through float32, hence equals
`v` exactly whenever both coordinates are float32-representable. -/
theorem zt_project_rounds (v : Vec) :
    ZT.Project v = V (float32 v.X) (float32 v.Y) ∧
      (float32 v.X = v.X → float32 v.Y = v.Y → ZT.Project v = v) := by
  obtain ⟨x, y⟩ := v
  have h1 : ZT.Project (x, y) = V (float32 x) (float32 y) := by
    simp only [ZT, Transform.Scale, Transform.Project, Transform.Mat, Ident3, Translate2D,
      Rotate3DZ, Scale2D, Mat3.Mul3, Mat3.Mul3x1, V, Vec.X, Vec.Y, neg_zero, float32_zero,
      float32_one, Real.cos_zero, Real.sin_zero, Prod.mk.injEq]
    constructor <;> ring
  refine ⟨h1, fun hx hy => ?_⟩
  simp only [Vec.X, Vec.Y] at hx hy
  rw [h1, V, hx, hy]

/-- Witness for C6 (amended) at `v = (1, 0)`, whose coordinates are
float32-representable. -/
theorem zt_project_rounds_witness : ZT.Project (V 1 0) = V 1 0 :=
  (zt_project_rounds (V 1 0)).2 (by simpa [V, Vec.X] using float32_one)
    (by simpa [V, Vec.Y] using float32_zero)

/-- C2 counterexample: for `center=(10,10)`, `zoom=(2,2)`,
`screenSize=(800,600)`, `Camera(center, zoom, screenSize).Project(center)`
is not `screenSize/2 = (400,300)`. -/
theorem camera_project_center_not_half_screen :
    ¬ (Camera (V 10 10) (V 2 2) (V 800 600)).Project (V 10 10) = V 400 300 := by
  intro h
  have h1 := congrArg Prod.fst h
  simp only [Camera, Anchor, ZT, Transform.Scale, Transform.Anchor, Transform.ScaleXY,
    Transform.MulScaleXY, Transform.Project, Transform.Mat, Ident3, Translate2D, Rotate3DZ,
    Scale2D, Mat3.Mul3, Mat3.Mul3x1, V, Vec.X, Vec.Y, float32_neg, float32_zero,
    Real.cos_zero, Real.sin_zero] at h1
  ring_nf at h1
  norm_num at h1

/-- C2 amended: for every `center`, `zoom` and `screenSize`, the camera
transform projects the world point `center` to `(0, 0)` — the screen
center of the normalized device coordinate system the camera maps into
(the scale `2/screenSize` maps pixels to `[-1, 1]`) — not to
`screenSize/2`. -/
theorem camera_projects_center_to_origin (center zoom screenSize : Vec) :
    (Camera center zoom screenSize).Project center = V 0 0 := by
  obtain ⟨cx, cy⟩ := center
  simp only [Camera, Anchor, ZT, Transform.Scale, Transform.Anchor, Transform.ScaleXY,
    Transform.MulScaleXY, Transform.Project, Transform.Mat, Ident3, Translate2D, Rotate3DZ,
    Scale2D, Mat3.Mul3, Mat3.Mul3x1, V, Vec.X, Vec.Y, float32_neg, float32_zero,
    Real.cos_zero, Real.sin_zero, Prod.mk.injEq]
  constructor <;> ring

end Pixel
